import Mathlib

/-!
Verification of the Supamole discovery & exposure-audit engine
(`extract-data.js` / `pii-detection.js`) against its specification.

The JavaScript source is shallowly embedded: JS row values become `JsValue`
(the audited code only ever stores and inspects flat scalar values in rows,
so nested objects are not needed), JS objects become insertion-ordered
association lists, and every network interaction (Supabase queries, storage
listings, HTTP fetches) becomes an explicit oracle field of an environment
structure.  Logging (`log(...)` calls), SQL-file export and sign-out have no
effect on any audited output and are omitted.
-/

set_option autoImplicit false

namespace Supamole

/-- A flat JavaScript value as it occurs in sampled rows: `undefined`, `null`,
booleans, (integer) numbers and strings. -/
inductive JsValue where
  | vUndefined
  | vNull
  | vBool (b : Bool)
  | vNum (n : Int)
  | vStr (s : String)
  deriving DecidableEq, Repr

open JsValue

/-- A JavaScript object: an insertion-ordered association list of
property-name / value bindings. -/
abbrev JsObject := List (String × JsValue)

/-- JavaScript truthiness of a flat value (`if (v) ...`). -/
def truthy : JsValue → Bool
  | vUndefined => false
  | vNull => false
  | vBool b => b
  | vNum n => n != 0
  | vStr s => s != ""

/-- JavaScript loose equality with `null` (`v == null`), true exactly for
`null` and `undefined`. -/
def looseNull : JsValue → Bool
  | vUndefined => true
  | vNull => true
  | _ => false

/-- JavaScript `String(v)` on a flat value. -/
def jsToString : JsValue → String
  | vUndefined => "undefined"
  | vNull => "null"
  | vBool b => if b then "true" else "false"
  | vNum n => toString n
  | vStr s => s

/-- The first binding for key `k`, if any (`Object.prototype.hasOwnProperty`
view of property access). -/
def getBinding (o : JsObject) (k : String) : Option JsValue :=
  (o.find? (fun p => p.1 == k)).map (·.2)

/-- JavaScript property read `o[k]`: the bound value, or `undefined` when the
key is absent. -/
def getProp (o : JsObject) (k : String) : JsValue :=
  (getBinding o k).getD vUndefined

/-- Whether the object has a binding for key `k`. -/
def hasKey (o : JsObject) (k : String) : Bool :=
  o.any (fun p => p.1 == k)

/-- JavaScript property assignment semantics of an object literal
`{...o, k: v}`: replace the value in place when the key exists (JS objects
have unique keys, so replacing the first binding is exact), otherwise append
the new binding at the end. -/
def setProp : JsObject → String → JsValue → JsObject
  | [], k, v => [(k, v)]
  | p :: t, k, v => if p.1 == k then (k, v) :: t else p :: setProp t k v

/-- `maskAuthUsersRow` from `extract-data.js`: build
`{...row, encrypted_password: row.encrypted_password ? '[MASKED]' : row.encrypted_password, ...}`
for the three sensitive auth-user fields.  (The JS `if (!row) return row`
guard only concerns null/undefined rows, which are outside `JsObject`.) -/
def maskAuthUsersRow (row : JsObject) : JsObject :=
  let maskField := fun (k : String) =>
    if truthy (getProp row k) then vStr "[MASKED]" else getProp row k
  setProp
    (setProp
      (setProp row "encrypted_password" (maskField "encrypted_password"))
      "email_confirmation_token" (maskField "email_confirmation_token"))
    "recovery_token" (maskField "recovery_token")

/-! ### Association-list lemmas about `setProp` -/

theorem getBinding_nil (k : String) : getBinding [] k = none := rfl

theorem getBinding_setProp_ne (o : JsObject) (k k' : String) (v : JsValue)
    (h : k ≠ k') : getBinding (setProp o k' v) k = getBinding o k := by
  induction o with
  | nil =>
    have hk : ¬ (k' == k) = true := by
      simp only [beq_iff_eq]; exact fun hc => h hc.symm
    simp [setProp, getBinding, hk]
  | cons p t ih =>
    by_cases hp : (p.1 == k') = true
    · have hp1 : p.1 = k' := by simpa [beq_iff_eq] using hp
      have hk : ¬ (k' == k) = true := by
        simp only [beq_iff_eq]; exact fun hc => h hc.symm
      have hpk : ¬ (p.1 == k) = true := by
        simp only [beq_iff_eq, hp1]; exact fun hc => h hc.symm
      simp [setProp, getBinding, hp, hk, hpk]
    · simp only [setProp, hp, Bool.false_eq_true, if_neg, not_false_iff]
      by_cases hpk : (p.1 == k) = true
      · simp [getBinding, hpk]
      · simp only [getBinding, List.find?_cons, hpk] at ih ⊢
        simpa using ih

theorem getBinding_setProp_self (o : JsObject) (k : String) (v : JsValue) :
    getBinding (setProp o k v) k = some v := by
  induction o with
  | nil => simp [setProp, getBinding]
  | cons p t ih =>
    by_cases hp : (p.1 == k) = true
    · simp [setProp, getBinding, hp]
    · simp only [setProp, hp, Bool.false_eq_true, if_neg, not_false_iff]
      simp only [getBinding, List.find?_cons, hp] at ih ⊢
      simpa using ih

theorem hasKey_setProp (o : JsObject) (k k' : String) (v : JsValue) :
    hasKey (setProp o k' v) k = true ↔ (hasKey o k = true ∨ k' = k) := by
  induction o with
  | nil =>
    simp only [setProp, hasKey, List.any_cons, List.any_nil, Bool.or_false,
      Bool.or_eq_true, beq_iff_eq, Bool.false_eq_true]
    tauto
  | cons p t ih =>
    by_cases hp : (p.1 == k') = true
    · have hp1 : p.1 = k' := by simpa [beq_iff_eq] using hp
      simp only [setProp, hp, if_pos, hasKey, List.any_cons, Bool.or_eq_true,
        beq_iff_eq, hp1]
      tauto
    · simp only [setProp, hp, Bool.false_eq_true, if_neg, not_false_iff, hasKey,
        List.any_cons, Bool.or_eq_true, beq_iff_eq] at ih ⊢
      tauto

/-! ### Masking: concrete rows for the spec's masking example -/

/-- The auth-domain user row of the spec's masking example. -/
def exampleAuthRow : JsObject :=
  [("id", vNum 5), ("encrypted_password", vStr "abc"),
   ("recovery_token", vStr ""), ("email", vStr "a@b.com")]

/-- The masked row the spec claims: exactly the input with
`encrypted_password` replaced. -/
def specMaskedRow : JsObject :=
  [("id", vNum 5), ("encrypted_password", vStr "[MASKED]"),
   ("recovery_token", vStr ""), ("email", vStr "a@b.com")]

/-- The row the code actually produces: the spread-then-assign object literal
also binds the absent sensitive key `email_confirmation_token` to
`undefined`. -/
def actualMaskedRow : JsObject :=
  [("id", vNum 5), ("encrypted_password", vStr "[MASKED]"),
   ("recovery_token", vStr ""), ("email", vStr "a@b.com"),
   ("email_confirmation_token", vUndefined)]

/-- C3 counterexample: masking the example row does **not** yield exactly the
four-key row the spec claims — the output additionally carries an
`email_confirmation_token` binding (to `undefined`) that the input did not
have. -/
theorem maskAuthUsersRow_example_ne_spec :
    maskAuthUsersRow exampleAuthRow ≠ specMaskedRow ∧
    hasKey (maskAuthUsersRow exampleAuthRow) "email_confirmation_token" = true ∧
    hasKey specMaskedRow "email_confirmation_token" = false := by
  decide

/-- C3 (amended): masking the example row yields
`{id: 5, encrypted_password: "[MASKED]", recovery_token: "",
email: "a@b.com", email_confirmation_token: undefined}` — the row the spec
claims plus one extra binding of the absent sensitive key
`email_confirmation_token` to `undefined`; every property read agrees with
the row the spec claims. -/
theorem maskAuthUsersRow_example_eq :
    maskAuthUsersRow exampleAuthRow = actualMaskedRow ∧
    ∀ k : String, getProp (maskAuthUsersRow exampleAuthRow) k = getProp specMaskedRow k := by
  refine ⟨by decide, ?_⟩
  intro k
  by_cases h : k = "email_confirmation_token"
  · subst h; decide
  · show getProp (specMaskedRow ++ [("email_confirmation_token", vUndefined)]) k =
      getProp specMaskedRow k
    unfold getProp getBinding
    rw [List.find?_append]
    have hnone : List.find? (fun p => p.1 == k)
        [("email_confirmation_token", vUndefined)] = none := by
      have : ¬ (("email_confirmation_token" : String) == k) = true := by
        simp only [beq_iff_eq]; exact fun hc => h hc.symm
      simp [List.find?_cons, this]
    rw [hnone]
    cases List.find? (fun p => p.1 == k) specMaskedRow <;> rfl

/-- The three sensitive auth-user field names. -/
def sensitiveAuthFields : List String :=
  ["encrypted_password", "email_confirmation_token", "recovery_token"]

/-- C10: for every input row, masking leaves every binding for a
non-sensitive key untouched (same presence, same value), its key set is
exactly the input's keys united with the three sensitive key names, and a
sensitive key absent from the input appears in the output bound to
`undefined`. -/
theorem maskAuthUsersRow_frame (row : JsObject) (k : String) :
    (k ∉ sensitiveAuthFields →
      getBinding (maskAuthUsersRow row) k = getBinding row k) ∧
    (hasKey (maskAuthUsersRow row) k = true ↔
      (hasKey row k = true ∨ k ∈ sensitiveAuthFields)) ∧
    (k ∈ sensitiveAuthFields → hasKey row k = false →
      getBinding (maskAuthUsersRow row) k = some vUndefined) := by
  have hep : ("encrypted_password" : String) ≠ "email_confirmation_token" := by decide
  have hep2 : ("encrypted_password" : String) ≠ "recovery_token" := by decide
  have hec : ("email_confirmation_token" : String) ≠ "recovery_token" := by decide
  refine ⟨?_, ?_, ?_⟩
  · intro hk
    simp only [sensitiveAuthFields, List.mem_cons, List.not_mem_nil, or_false,
      not_or] at hk
    obtain ⟨h1, h2, h3⟩ := hk
    unfold maskAuthUsersRow
    rw [getBinding_setProp_ne _ _ _ _ h3, getBinding_setProp_ne _ _ _ _ h2,
      getBinding_setProp_ne _ _ _ _ h1]
  · unfold maskAuthUsersRow
    simp only [hasKey_setProp, sensitiveAuthFields, List.mem_cons,
      List.not_mem_nil, or_false]
    constructor
    · rintro (((h | h) | h) | h)
      · exact Or.inl h
      · exact Or.inr (Or.inl h.symm)
      · exact Or.inr (Or.inr (Or.inl h.symm))
      · exact Or.inr (Or.inr (Or.inr h.symm))
    · rintro (h | (h | h | h))
      · exact Or.inl (Or.inl (Or.inl h))
      · exact Or.inl (Or.inl (Or.inr h.symm))
      · exact Or.inl (Or.inr h.symm)
      · exact Or.inr h.symm
  · intro hk habs
    have habs2 : ∀ k2, hasKey row k2 = false → getProp row k2 = vUndefined := by
      intro k2 hk2
      unfold getProp getBinding
      rcases hf : List.find? (fun p => p.1 == k2) row with _ | p
      · rw [hf]; rfl
      · exfalso
        have hp := List.find?_some hf
        have : hasKey row k2 = true :=
          List.any_eq_true.mpr ⟨p, List.mem_of_find?_eq_some hf, hp⟩
        rw [this] at hk2; exact absurd hk2 (by simp)
    simp only [sensitiveAuthFields, List.mem_cons, List.not_mem_nil, or_false] at hk
    rcases hk with h | h | h
    · subst h
      have hval := habs2 _ habs
      simp only [maskAuthUsersRow]
      rw [getBinding_setProp_ne _ _ _ _ hep2, getBinding_setProp_ne _ _ _ _ hep,
        getBinding_setProp_self, hval]
      simp [truthy]
    · subst h
      have hval := habs2 _ habs
      simp only [maskAuthUsersRow]
      rw [getBinding_setProp_ne _ _ _ _ hec, getBinding_setProp_self, hval]
      simp [truthy]
    · subst h
      have hval := habs2 _ habs
      simp only [maskAuthUsersRow]
      rw [getBinding_setProp_self, hval]
      simp [truthy]

/-- C10 witness: on the example row, the non-sensitive `id` binding is
untouched, the key-set characterisation holds at key `email`, and the
absent sensitive key `email_confirmation_token` is bound to `undefined`. -/
theorem maskAuthUsersRow_frame_witness :
    getBinding (maskAuthUsersRow exampleAuthRow) "id" =
      getBinding exampleAuthRow "id" ∧
    (hasKey (maskAuthUsersRow exampleAuthRow) "email" = true ↔
      (hasKey exampleAuthRow "email" = true ∨
        "email" ∈ sensitiveAuthFields)) ∧
    getBinding (maskAuthUsersRow exampleAuthRow) "email_confirmation_token" =
      some vUndefined :=
  ⟨(maskAuthUsersRow_frame exampleAuthRow "id").1 (by decide),
   (maskAuthUsersRow_frame exampleAuthRow "email").2.1,
   (maskAuthUsersRow_frame exampleAuthRow "email_confirmation_token").2.2
     (by decide) (by decide)⟩

/-! ### PII detection (`pii-detection.js`)

Each JS regular expression is translated into an executable Lean predicate on
strings; the translations are exact on the character classes the rules use
(the JS `\s` class is rendered by `jsWhitespace`). -/

/-- The `\s` character class of JS regular expressions. -/
def jsWhitespace (c : Char) : Bool :=
  c = ' ' || c = '\t' || c = '\n' || c = '\r' ||
  c.toNat = 0xB || c.toNat = 0xC || c.toNat = 0xA0 || c.toNat = 0x1680 ||
  (0x2000 ≤ c.toNat && c.toNat ≤ 0x200A) || c.toNat = 0x2028 ||
  c.toNat = 0x2029 || c.toNat = 0x202F || c.toNat = 0x205F ||
  c.toNat = 0x3000 || c.toNat = 0xFEFF

def isAsciiLetter (c : Char) : Bool :=
  ('a' ≤ c && c ≤ 'z') || ('A' ≤ c && c ≤ 'Z')

/-- JS `String.prototype.toLowerCase()` (character-wise). -/
def jsToLower (s : String) : String := String.mk (s.data.map Char.toLower)

/-- JS `String.prototype.trim()`: strip the `\s`-style whitespace class from
both ends. -/
def jsTrim (s : String) : String :=
  String.mk (((s.data.dropWhile jsWhitespace).reverse.dropWhile
    jsWhitespace).reverse)

/-- `[À-ɏ]`: Latin-1 supplement / extended letters. -/
def isLatinExtended (c : Char) : Bool :=
  0xC0 ≤ c.toNat && c.toNat ≤ 0x24F

/-- `/^[a-zA-ZÀ-ɏ\s'-]{2,80}$/` — the `name` value pattern. -/
def nameValuePattern (s : String) : Bool :=
  2 ≤ s.data.length && s.data.length ≤ 80 &&
  s.toList.all (fun c =>
    isAsciiLetter c || isLatinExtended c || jsWhitespace c || c = '\'' || c = '-')

/-- The run of leading decimal digits of a character list and the rest. -/
def spanDigits (cs : List Char) : Nat × List Char :=
  ((cs.takeWhile Char.isDigit).length, cs.dropWhile Char.isDigit)

/-- `^\d{1,2}[\/\-]\d{1,2}[\/\-]\d{2,4}$` — second `dob` alternative.
Greedy digit runs are exact here because the separators are not digits. -/
def dobSlashPattern (cs : List Char) : Bool :=
  let s1 := spanDigits cs
  match s1.2 with
  | c1 :: r2 =>
    if (1 ≤ s1.1 && s1.1 ≤ 2) && (c1 = '/' || c1 = '-') then
      let s2 := spanDigits r2
      match s2.2 with
      | c2 :: r4 =>
        if (1 ≤ s2.1 && s2.1 ≤ 2) && (c2 = '/' || c2 = '-') then
          let s3 := spanDigits r4
          (2 ≤ s3.1 && s3.1 ≤ 4) && s3.2.isEmpty
        else false
      | [] => false
    else false
  | [] => false

/-- `/^\d{4}-\d{2}-\d{2}$|^\d{1,2}[\/\-]\d{1,2}[\/\-]\d{2,4}$/` — the `dob`
value pattern. -/
def dobValuePattern (s : String) : Bool :=
  (match s.toList with
   | [a, b, c, d, '-', e, f, '-', g, h] =>
     a.isDigit && b.isDigit && c.isDigit && d.isDigit &&
     e.isDigit && f.isDigit && g.isDigit && h.isDigit
   | _ => false) ||
  dobSlashPattern s.toList

/-- The core alternation `1[0-1]\d|[1-9]?\d|120` of the `age` pattern. -/
def ageCorePattern : List Char → Bool
  | [d] => d.isDigit
  | [c, d] => ('1' ≤ c && c ≤ '9') && d.isDigit
  | ['1', c, d] => ((c = '0' || c = '1') && d.isDigit) || (c = '2' && d = '0')
  | _ => false

/-- `/^\s*(?:1[0-1]\d|[1-9]?\d|120)\s*$/` — the `age` value pattern.  The
core is all digits and `\s` matches no digit, so stripping maximal
whitespace from both ends is exact. -/
def ageValuePattern (s : String) : Bool :=
  ageCorePattern
    (((s.toList.dropWhile jsWhitespace).reverse.dropWhile jsWhitespace).reverse)

/-- `/^[\d\s\-+()]{10,20}$|^\+?[\d\s\-()]{10,}$/` — the `telephone` value
pattern. -/
def telephoneValuePattern (s : String) : Bool :=
  let telChar := fun (plus : Bool) (c : Char) =>
    c.isDigit || jsWhitespace c || c = '-' || c = '(' || c = ')' ||
    (plus && c = '+')
  (10 ≤ s.data.length && s.data.length ≤ 20 && s.toList.all (telChar true)) ||
  (match s.toList with
   | '+' :: rest => 10 ≤ rest.length && rest.all (telChar false)
   | cs => 10 ≤ cs.length && cs.all (telChar false))

/-- An anchored case-insensitive alternation of literal column names,
`/^(a|b|...)$/i`. -/
def columnMatches (pats : List String) (s : String) : Bool :=
  pats.contains (jsToLower s)

/-- One entry of `PII_RULES`. -/
structure PIIRule where
  piiType : String
  columnPattern : String → Bool
  valuePattern : Option (String → Bool)

def nameRule : PIIRule :=
  { piiType := "name",
    columnPattern := columnMatches
      ["name", "first_name", "last_name", "full_name", "customer_name",
       "user_name", "display_name", "contact_name", "recipient_name",
       "sender_name"],
    valuePattern := some nameValuePattern }

def dobRule : PIIRule :=
  { piiType := "dob",
    columnPattern := columnMatches
      ["dob", "date_of_birth", "birth_date", "birthdate", "birth_day",
       "dateofbirth"],
    valuePattern := some dobValuePattern }

def ageRule : PIIRule :=
  { piiType := "age",
    columnPattern := columnMatches ["age", "user_age", "customer_age"],
    valuePattern := some ageValuePattern }

def addressRule : PIIRule :=
  { piiType := "address",
    columnPattern := columnMatches
      ["address", "street", "address_line", "city", "postcode", "zip",
       "zipcode", "postal_code", "country", "state", "region"],
    valuePattern := none }

def telephoneRule : PIIRule :=
  { piiType := "telephone",
    columnPattern := columnMatches
      ["phone", "telephone", "mobile", "tel", "cell", "contact_number",
       "phone_number", "mobile_number"],
    valuePattern := some telephoneValuePattern }

def PII_RULES : List PIIRule :=
  [nameRule, dobRule, ageRule, addressRule, telephoneRule]

def MAX_EXAMPLES : Nat := 5

/-- A column shape as returned by the column resolver. -/
structure ColumnDescriptor where
  column_name : String
  data_type : String
  is_nullable : String
  column_default : Option String
  ordinal_position : Option Nat
  deriving DecidableEq, Repr

/-- One PII finding; `confidence` is the literal JS string
`"column_name"` or `"value"`. -/
structure PIIFinding where
  column : String
  piiType : String
  confidence : String
  examples : List String
  deriving DecidableEq, Repr

/-- Insertion into a JS `Set` materialised as an insertion-ordered
duplicate-free list. -/
def setAdd (l : List String) (s : String) : List String :=
  if s ∈ l then l else l ++ [s]

/-- The body of `detectPII`'s sample-row loop for one row: skip `null`/
`undefined`/empty-string values, stringify and trim, then either test the
rule's value pattern (escalating confidence on a match) or record every
value when the rule has no pattern. -/
def scanValue (rule : PIIRule) (colName : String)
    (acc : List String × String) (row : JsObject) : List String × String :=
  let v := getProp row colName
  if looseNull v then acc
  else if v = vStr "" then acc
  else
    let str := jsTrim (jsToString v)
    match rule.valuePattern with
    | some pat => if pat str then (setAdd acc.1 str, "value") else acc
    | none => (setAdd acc.1 str, acc.2)

/-- The finding `detectPII` pushes for one rule/column pair. -/
def mkFinding (rule : PIIRule) (colName : String)
    (sampleRows : List JsObject) : PIIFinding :=
  let scanned :=
    if 0 < sampleRows.length then
      sampleRows.foldl (scanValue rule colName) ([], "column_name")
    else ([], "column_name")
  { column := colName, piiType := rule.piiType, confidence := scanned.2,
    examples := scanned.1.take MAX_EXAMPLES }

/-- `detectPII` from `pii-detection.js`. -/
def detectPII (tableColumns : List ColumnDescriptor)
    (sampleRows : List JsObject) : List PIIFinding :=
  if tableColumns.length = 0 then []
  else
    let columnNames := tableColumns.map (·.column_name)
    PII_RULES.flatMap (fun rule =>
      columnNames.filterMap (fun colName =>
        if rule.columnPattern colName then
          some (mkFinding rule colName sampleRows)
        else none))

/-! ### PII lemmas -/

/-- A sample value of column `colName` in `row` that the value pattern `pat`
accepts: not `null`/`undefined`, not the empty string, and its trimmed
stringification matches. -/
def valueMatches (pat : String → Bool) (colName : String) (row : JsObject) : Prop :=
  looseNull (getProp row colName) = false ∧ getProp row colName ≠ vStr "" ∧
  pat (jsTrim (jsToString (getProp row colName))) = true

instance (pat : String → Bool) (colName : String) (row : JsObject) :
    Decidable (valueMatches pat colName row) := by
  unfold valueMatches; infer_instance

theorem mem_setAdd (l : List String) (s e : String) :
    e ∈ setAdd l s ↔ (e ∈ l ∨ e = s) := by
  unfold setAdd
  split
  next h =>
    constructor
    · exact Or.inl
    · rintro (he | rfl)
      · exact he
      · exact h
  next h => simp [List.mem_append]

theorem scan_fold_spec (rule : PIIRule) (pat : String → Bool)
    (hpat : rule.valuePattern = some pat) (colName : String) :
    ∀ (rows : List JsObject) (acc : List String × String),
      ((rows.foldl (scanValue rule colName) acc).2 = "value" ↔
        (acc.2 = "value" ∨ ∃ row ∈ rows, valueMatches pat colName row)) ∧
      (∀ e ∈ (rows.foldl (scanValue rule colName) acc).1,
        e ∈ acc.1 ∨ (pat e = true ∧ ∃ row ∈ rows,
          e = jsTrim (jsToString (getProp row colName)))) := by
  have hstep : ∀ (acc : List String × String) (row : JsObject),
      (¬ valueMatches pat colName row ∧ scanValue rule colName acc row = acc) ∨
      (valueMatches pat colName row ∧ scanValue rule colName acc row =
        (setAdd acc.1 (jsTrim (jsToString (getProp row colName))), "value")) := by
    intro acc row
    unfold scanValue valueMatches
    rw [hpat]
    by_cases h1 : looseNull (getProp row colName) = true
    · left
      refine ⟨fun hc => ?_, by simp [h1]⟩
      rw [h1] at hc; exact absurd hc.1 (by simp)
    · by_cases h2 : getProp row colName = vStr ""
      · left
        refine ⟨fun hc => absurd h2 hc.2.1, ?_⟩
        simp [h1, h2]
      · by_cases h3 : pat (jsTrim (jsToString (getProp row colName))) = true
        · right
          refine ⟨⟨by simpa using h1, h2, h3⟩, ?_⟩
          simp [h1, h2, h3]
        · left
          refine ⟨fun hc => absurd hc.2.2 h3, ?_⟩
          simp [h1, h2, h3]
  intro rows
  induction rows with
  | nil =>
    intro acc
    refine ⟨by simp, fun e he => Or.inl he⟩
  | cons row rows ih =>
    intro acc
    rw [List.foldl_cons]
    rcases hstep acc row with ⟨hnm, he⟩ | ⟨hm, he⟩
    · rw [he]
      refine ⟨?_, ?_⟩
      · rw [(ih acc).1]
        constructor
        · rintro (h | ⟨r, hr, hmr⟩)
          · exact Or.inl h
          · exact Or.inr ⟨r, List.Mem.tail _ hr, hmr⟩
        · rintro (h | ⟨r, hr, hmr⟩)
          · exact Or.inl h
          · rcases List.mem_cons.mp hr with rfl | hr2
            · exact absurd hmr hnm
            · exact Or.inr ⟨r, hr2, hmr⟩
      · intro e he2
        rcases (ih acc).2 e he2 with h | ⟨hp, r, hr, hee⟩
        · exact Or.inl h
        · exact Or.inr ⟨hp, r, List.Mem.tail _ hr, hee⟩
    · rw [he]
      refine ⟨?_, ?_⟩
      · constructor
        · intro _
          exact Or.inr ⟨row, List.Mem.head _, hm⟩
        · intro _
          exact (ih _).1.mpr (Or.inl rfl)
      · intro e he2
        rcases (ih _).2 e he2 with h | ⟨hp, r, hr, hee⟩
        · rcases (mem_setAdd _ _ _).mp h with h2 | rfl
          · exact Or.inl h2
          · exact Or.inr ⟨hm.2.2, row, List.Mem.head _, rfl⟩
        · exact Or.inr ⟨hp, r, List.Mem.tail _ hr, hee⟩

theorem mkFinding_spec (rule : PIIRule) (pat : String → Bool)
    (hpat : rule.valuePattern = some pat) (colName : String)
    (rows : List JsObject) :
    ((mkFinding rule colName rows).confidence = "value" ↔
      ∃ row ∈ rows, valueMatches pat colName row) ∧
    (∀ e ∈ (mkFinding rule colName rows).examples,
      pat e = true ∧ ∃ row ∈ rows,
        e = jsTrim (jsToString (getProp row colName))) := by
  have hfold : mkFinding rule colName rows =
      { column := colName, piiType := rule.piiType,
        confidence := (rows.foldl (scanValue rule colName) ([], "column_name")).2,
        examples :=
          (rows.foldl (scanValue rule colName) ([], "column_name")).1.take
            MAX_EXAMPLES } := by
    unfold mkFinding
    rcases rows with _ | ⟨r, rs⟩
    · rfl
    · simp only [List.length_cons]
      rw [if_pos (show 0 < rs.length + 1 by omega)]
  rw [hfold]
  constructor
  · simp only
    rw [(scan_fold_spec rule pat hpat colName rows ([], "column_name")).1]
    have hne : ¬ (("column_name" : String) = "value") := by decide
    tauto
  · intro e he
    simp only at he
    have he2 := List.take_subset MAX_EXAMPLES _ he
    rcases (scan_fold_spec rule pat hpat colName rows ([], "column_name")).2 e he2 with
      h | h
    · exact absurd h (List.not_mem_nil e)
    · exact h

theorem mem_detectPII (cols : List ColumnDescriptor) (rows : List JsObject)
    (f : PIIFinding) :
    f ∈ detectPII cols rows ↔
      cols.length ≠ 0 ∧ ∃ rule ∈ PII_RULES, ∃ c ∈ cols,
        rule.columnPattern c.column_name = true ∧
        f = mkFinding rule c.column_name rows := by
  unfold detectPII
  split
  next h => simp [h]
  next h =>
    simp only [List.mem_flatMap, List.mem_filterMap, List.mem_map]
    constructor
    · rintro ⟨rule, hrule, colName, ⟨c, hc, rfl⟩, hif⟩
      split at hif
      next hcp => exact ⟨h, rule, hrule, c, hc, hcp, (Option.some.inj hif).symm⟩
      next => exact absurd hif (by simp)
    · rintro ⟨-, rule, hrule, c, hc, hcp, rfl⟩
      exact ⟨rule, hrule, c.column_name, ⟨c, hc, rfl⟩, by rw [if_pos hcp]⟩

/-- C4: every finding produced by `detectPII` comes from some rule in
`PII_RULES`, and when that rule carries a value pattern, the finding's
confidence is `"value"` exactly when at least one sample value of the
flagged column matches the pattern, and every recorded example is a trimmed
sample value that matches the pattern. -/
theorem detectPII_valueMatched (cols : List ColumnDescriptor)
    (rows : List JsObject) (f : PIIFinding) (hf : f ∈ detectPII cols rows) :
    ∃ rule ∈ PII_RULES, f.piiType = rule.piiType ∧
      ∀ pat, rule.valuePattern = some pat →
        ((f.confidence = "value" ↔ ∃ row ∈ rows, valueMatches pat f.column row) ∧
         ∀ e ∈ f.examples, pat e = true ∧
           ∃ row ∈ rows, e = jsTrim (jsToString (getProp row f.column))) := by
  rcases (mem_detectPII cols rows f).mp hf with ⟨-, rule, hrule, c, hc, hcp, rfl⟩
  refine ⟨rule, hrule, rfl, ?_⟩
  intro pat hpat
  exact mkFinding_spec rule pat hpat c.column_name rows

/-- The spec's value-escalation example: column `dob`. -/
def dobColumn : ColumnDescriptor := ⟨"dob", "text", "YES", none, none⟩

/-- Sample rows `["1990-01-01", "not-a-date"]` for column `dob`. -/
def dobRows : List JsObject :=
  [[("dob", vStr "1990-01-01")], [("dob", vStr "not-a-date")]]

/-- The finding for the `dob` example. -/
def dobFinding : PIIFinding := ⟨"dob", "dob", "value", ["1990-01-01"]⟩

/-- C4 witness: on the spec's example the produced finding has confidence
`"value"`, its examples match the `dob` pattern, and `"not-a-date"` is not
among them. -/
theorem detectPII_valueMatched_witness :
    (detectPII [dobColumn] dobRows = [dobFinding] ∧
      "not-a-date" ∉ dobFinding.examples) ∧
    (∃ rule ∈ PII_RULES, dobFinding.piiType = rule.piiType ∧
      ∀ pat, rule.valuePattern = some pat →
        ((dobFinding.confidence = "value" ↔
            ∃ row ∈ dobRows, valueMatches pat dobFinding.column row) ∧
         ∀ e ∈ dobFinding.examples, pat e = true ∧
           ∃ row ∈ dobRows,
             e = jsTrim (jsToString (getProp row dobFinding.column)))) :=
  ⟨by decide, detectPII_valueMatched [dobColumn] dobRows dobFinding (by decide)⟩

/-- C8: with an empty sample-row list, every column matching a rule's column
pattern still yields the finding with confidence `"column_name"` and no
examples — column-name evidence alone flags the column. -/
theorem detectPII_emptyRows (cols : List ColumnDescriptor) (rule : PIIRule)
    (hrule : rule ∈ PII_RULES) (c : ColumnDescriptor) (hc : c ∈ cols)
    (hcp : rule.columnPattern c.column_name = true) :
    ({ column := c.column_name, piiType := rule.piiType,
       confidence := "column_name", examples := [] } : PIIFinding) ∈
      detectPII cols [] := by
  rw [mem_detectPII]
  refine ⟨?_, rule, hrule, c, hc, hcp, rfl⟩
  intro h0
  rw [List.length_eq_zero] at h0
  subst h0
  exact absurd hc (List.not_mem_nil c)

/-- C8 witness: the `age` column with no sample rows is still flagged at
`"column_name"` confidence with empty examples. -/
theorem detectPII_emptyRows_witness :
    ({ column := "age", piiType := "age", confidence := "column_name",
       examples := [] } : PIIFinding) ∈
      detectPII [⟨"age", "int4", "YES", none, some 1⟩] [] :=
  detectPII_emptyRows [⟨"age", "int4", "YES", none, some 1⟩] ageRule
    (by simp [PII_RULES]) ⟨"age", "int4", "YES", none, some 1⟩
    (List.Mem.head _) (by decide)

/-! ### Discovery merger (`getSchemaInfo`, claims about de-duplication)

A discovered collection descriptor, as built by the discovery strategies
(`table_name`, `table_schema`, `table_type`, and for GraphQL-discovered
types the original type name and field count). -/

structure TableDesc where
  table_name : String
  table_schema : String
  table_type : String
  graphql_type : Option String := none
  field_count : Option Nat := none
  deriving DecidableEq, Repr

/-- JS `Array.prototype.findIndex`: index of the first element satisfying
`p`, or `-1` when none does. -/
def jsFindIndex {α : Type} (l : List α) (p : α → Bool) : Int :=
  match l with
  | [] => -1
  | a :: as =>
    if p a then 0
    else
      let r := jsFindIndex as p
      if r = -1 then -1 else r + 1

/-- JS `Array.prototype.filter` with an `(element, index)` callback, the
running index starting at `i`. -/
def jsFilterIdx {α : Type} (p : α → Int → Bool) : List α → Int → List α
  | [], _ => []
  | a :: as, i =>
    if p a i then a :: jsFilterIdx p as (i + 1) else jsFilterIdx p as (i + 1)

/-- The de-duplication at the end of `getSchemaInfo`:
`discoveredTables.filter((table, index, self) => index === self.findIndex(t => t.table_name === table.table_name))`. -/
def uniqueTables (self : List TableDesc) : List TableDesc :=
  jsFilterIdx
    (fun t i => jsFindIndex self (fun u => u.table_name == t.table_name) == i)
    self 0

theorem jsFindIndex_cases {α : Type} (l : List α) (p : α → Bool) :
    jsFindIndex l p = -1 ∨
      ∃ n : Nat, jsFindIndex l p = n ∧ n < l.length := by
  induction l with
  | nil => exact Or.inl rfl
  | cons a as ih =>
    by_cases hpa : p a = true
    · exact Or.inr ⟨0, by simp [jsFindIndex, hpa], by simp⟩
    · rcases ih with h | ⟨n, hn, hlt⟩
      · left
        simp [jsFindIndex, hpa, h]
      · right
        refine ⟨n + 1, ?_, by simpa using Nat.succ_lt_succ hlt⟩
        have hne : jsFindIndex as p ≠ -1 := by rw [hn]; omega
        simp only [jsFindIndex, hpa, Bool.false_eq_true, if_neg, not_false_iff,
          hne, if_false]
        rw [hn]; push_cast; ring

theorem jsFindIndex_get {α : Type} (l : List α) (p : α → Bool) (n : Nat)
    (h : jsFindIndex l p = n) :
    ∃ t, l.get? n = some t ∧ p t = true := by
  induction l generalizing n with
  | nil =>
    exfalso
    simp only [jsFindIndex] at h
    omega
  | cons a as ih =>
    by_cases hpa : p a = true
    · have hn : (n : Int) = 0 := by
        simp [jsFindIndex, hpa] at h; omega
      have : n = 0 := by exact_mod_cast hn
      subst this
      exact ⟨a, rfl, hpa⟩
    · rcases jsFindIndex_cases as p with hneg | ⟨m, hm, -⟩
      · simp [jsFindIndex, hpa, hneg] at h
      · have hne : jsFindIndex as p ≠ -1 := by rw [hm]; omega
        simp only [jsFindIndex, hpa, Bool.false_eq_true, if_neg, not_false_iff,
          hne, if_false] at h
        rw [hm] at h
        have hn : n = m + 1 := by exact_mod_cast h.symm
        subst hn
        simpa using ih m hm

theorem jsFindIndex_first {α : Type} (l : List α) (p : α → Bool) (n : Nat)
    (h : jsFindIndex l p = n) :
    ∀ m : Nat, m < n → ∀ u, l.get? m = some u → p u = false := by
  induction l generalizing n with
  | nil => intro m _ u hu; simp at hu
  | cons a as ih =>
    by_cases hpa : p a = true
    · have hn : (n : Int) = 0 := by simp [jsFindIndex, hpa] at h; omega
      have : n = 0 := by exact_mod_cast hn
      subst this
      intro m hm
      omega
    · rcases jsFindIndex_cases as p with hneg | ⟨m0, hm0, -⟩
      · simp [jsFindIndex, hpa, hneg] at h
      · have hne : jsFindIndex as p ≠ -1 := by rw [hm0]; omega
        simp only [jsFindIndex, hpa, Bool.false_eq_true, if_neg, not_false_iff,
          hne, if_false] at h
        rw [hm0] at h
        have hn : n = m0 + 1 := by exact_mod_cast h.symm
        subst hn
        intro m hm u hu
        match m, hu with
        | 0, hu =>
          have : u = a := by simpa using hu.symm
          subst this
          simpa using hpa
        | m + 1, hu =>
          exact ih m0 hm0 m (by omega) u (by simpa using hu)

theorem jsFindIndex_find? {α : Type} (l : List α) (p : α → Bool) (n : Nat)
    (h : jsFindIndex l p = n) (t : α) (ht : l.get? n = some t) :
    l.find? p = some t := by
  induction l generalizing n with
  | nil => simp at ht
  | cons a as ih =>
    by_cases hpa : p a = true
    · have hn : (n : Int) = 0 := by simp [jsFindIndex, hpa] at h; omega
      have : n = 0 := by exact_mod_cast hn
      subst this
      have : t = a := by simpa using ht.symm
      subst this
      simp [List.find?_cons, hpa]
    · rcases jsFindIndex_cases as p with hneg | ⟨m0, hm0, -⟩
      · simp [jsFindIndex, hpa, hneg] at h
      · have hne : jsFindIndex as p ≠ -1 := by rw [hm0]; omega
        simp only [jsFindIndex, hpa, Bool.false_eq_true, if_neg, not_false_iff,
          hne, if_false] at h
        rw [hm0] at h
        have hn : n = m0 + 1 := by exact_mod_cast h.symm
        subst hn
        have hpaf : p a = false := by simpa using hpa
        rw [List.find?_cons, hpaf]
        exact ih m0 hm0 (by simpa using ht)

theorem jsFindIndex_of_mem {α : Type} (l : List α) (p : α → Bool) (t : α)
    (ht : t ∈ l) (hp : p t = true) :
    ∃ n : Nat, jsFindIndex l p = n := by
  induction l with
  | nil => exact absurd ht (List.not_mem_nil t)
  | cons a as ih =>
    by_cases hpa : p a = true
    · exact ⟨0, by simp [jsFindIndex, hpa]⟩
    · rcases List.mem_cons.mp ht with rfl | hmem
      · exact absurd hp hpa
      · rcases ih hmem with ⟨m, hm⟩
        have hne : jsFindIndex as p ≠ -1 := by rw [hm]; omega
        refine ⟨m + 1, ?_⟩
        simp only [jsFindIndex, hpa, Bool.false_eq_true, if_neg, not_false_iff,
          hne, if_false]
        rw [hm]; push_cast; ring

theorem mem_jsFilterIdx_ge {α : Type} (p : α → Int → Bool) (l : List α)
    (s : Int) (t : α) (ht : t ∈ jsFilterIdx p l s) :
    ∃ j : Int, s ≤ j ∧ p t j = true := by
  induction l generalizing s with
  | nil => simp [jsFilterIdx] at ht
  | cons a as ih =>
    by_cases hpa : p a s = true
    · simp only [jsFilterIdx, hpa, if_pos] at ht
      rcases List.mem_cons.mp ht with rfl | hmem
      · exact ⟨s, le_refl s, hpa⟩
      · rcases ih (s + 1) hmem with ⟨j, hj, hpj⟩
        exact ⟨j, by omega, hpj⟩
    · simp only [jsFilterIdx, hpa, Bool.false_eq_true, if_neg, not_false_iff] at ht
      rcases ih (s + 1) ht with ⟨j, hj, hpj⟩
      exact ⟨j, by omega, hpj⟩

theorem mem_jsFilterIdx_get {α : Type} (p : α → Int → Bool) (l : List α)
    (s : Int) (t : α) (ht : t ∈ jsFilterIdx p l s) :
    ∃ j : Nat, l.get? j = some t ∧ p t (s + j) = true := by
  induction l generalizing s with
  | nil => simp [jsFilterIdx] at ht
  | cons a as ih =>
    by_cases hpa : p a s = true
    · simp only [jsFilterIdx, hpa, if_pos] at ht
      rcases List.mem_cons.mp ht with rfl | hmem
      · exact ⟨0, rfl, by simpa using hpa⟩
      · rcases ih (s + 1) hmem with ⟨j, hj, hpj⟩
        refine ⟨j + 1, by simpa using hj, ?_⟩
        have harg : s + ((j + 1 : Nat) : Int) = (s + 1) + (j : Int) := by
          push_cast; ring
        rw [harg]
        exact hpj
    · simp only [jsFilterIdx, hpa, Bool.false_eq_true, if_neg, not_false_iff] at ht
      rcases ih (s + 1) ht with ⟨j, hj, hpj⟩
      refine ⟨j + 1, by simpa using hj, ?_⟩
      have harg : s + ((j + 1 : Nat) : Int) = (s + 1) + (j : Int) := by
        push_cast; ring
      rw [harg]
      exact hpj

theorem get_mem_jsFilterIdx {α : Type} (p : α → Int → Bool) (l : List α)
    (s : Int) (j : Nat) (t : α) (hget : l.get? j = some t)
    (hp : p t (s + j) = true) : t ∈ jsFilterIdx p l s := by
  induction l generalizing s j with
  | nil => simp at hget
  | cons a as ih =>
    match j, hget, hp with
    | 0, hget, hp =>
      have : t = a := by simpa using hget.symm
      subst this
      have hps : p t s = true := by simpa using hp
      simp only [jsFilterIdx, hps, if_pos]
      exact List.Mem.head _
    | j + 1, hget, hp =>
      have hget2 : as.get? j = some t := by simpa using hget
      have harg : s + ((j + 1 : Nat) : Int) = (s + 1) + (j : Int) := by
        push_cast; ring
      rw [harg] at hp
      have hmem := ih (s + 1) j hget2 hp
      by_cases hpa : p a s = true
      · simp only [jsFilterIdx, hpa, if_pos]
        exact List.Mem.tail _ hmem
      · simpa [jsFilterIdx, hpa] using hmem

theorem pairwise_jsFilterIdx {α : Type} (p : α → Int → Bool)
    (R : α → α → Prop)
    (h : ∀ x y i j, p x i = true → p y j = true → i < j → R x y) :
    ∀ (l : List α) (s : Int), List.Pairwise R (jsFilterIdx p l s) := by
  intro l
  induction l with
  | nil => intro s; simp [jsFilterIdx]
  | cons a as ih =>
    intro s
    by_cases hpa : p a s = true
    · simp only [jsFilterIdx, hpa, if_pos]
      refine List.Pairwise.cons ?_ (ih (s + 1))
      intro y hy
      rcases mem_jsFilterIdx_ge p as (s + 1) y hy with ⟨j, hj, hpj⟩
      exact h a y s j hpa hpj (by omega)
    · simp only [jsFilterIdx, hpa, Bool.false_eq_true, if_neg, not_false_iff]
      exact ih (s + 1)

/-- C2: the merger keeps exactly one descriptor per distinct collection
name — names in the output are pairwise distinct, every kept descriptor is
the *first* descriptor with its name in strategy order (metadata intact),
and every discovered name survives. -/
theorem uniqueTables_spec (l : List TableDesc) :
    List.Pairwise (fun a b => a.table_name ≠ b.table_name) (uniqueTables l) ∧
    (∀ t ∈ uniqueTables l,
      l.find? (fun u => u.table_name == t.table_name) = some t) ∧
    (∀ t ∈ l, ∃ u ∈ uniqueTables l, u.table_name = t.table_name) := by
  refine ⟨?_, ?_, ?_⟩
  · apply pairwise_jsFilterIdx
    intro x y i j hx hy hij hname
    rw [beq_iff_eq] at hx hy
    have hpred : (fun u : TableDesc => u.table_name == x.table_name) =
        (fun u : TableDesc => u.table_name == y.table_name) := by
      funext u; rw [hname]
    rw [hpred] at hx
    rw [hx] at hy
    omega
  · intro t ht
    rcases mem_jsFilterIdx_get _ l 0 t ht with ⟨j, hget, hq⟩
    rw [beq_iff_eq] at hq
    have hq2 : jsFindIndex l (fun u => u.table_name == t.table_name) = j := by
      rw [hq]; ring
    exact jsFindIndex_find? l _ j hq2 t hget
  · intro t ht
    have hpt : (fun u : TableDesc => u.table_name == t.table_name) t = true := by
      simp
    rcases jsFindIndex_of_mem l (fun u => u.table_name == t.table_name) t ht hpt with ⟨n, hn⟩
    rcases jsFindIndex_get l _ n hn with ⟨u, hu, hpu⟩
    have hname : u.table_name = t.table_name := by simpa using hpu
    refine ⟨u, ?_, hname⟩
    apply get_mem_jsFilterIdx _ l 0 n u hu
    have hpred : (fun w : TableDesc => w.table_name == u.table_name) =
        (fun w : TableDesc => w.table_name == t.table_name) := by
      funext w; rw [hname]
    rw [beq_iff_eq, hpred, hn]
    ring

/-- A concatenated discovery output in which the name `orders` appears
twice: first catalog-sourced, later GraphQL-discovered with different
metadata. -/
def dupDiscovered : List TableDesc :=
  [⟨"orders", "public", "BASE TABLE", none, none⟩,
   ⟨"users", "auth", "BASE TABLE", none, none⟩,
   ⟨"orders", "public", "GRAPHQL_TYPE", some "Orders", some 7⟩]

/-- C2 witness: on the duplicate-bearing input the merger keeps the first
`orders` descriptor with metadata intact, each kept descriptor is the first
occurrence of its name, and the dropped duplicate's name still survives. -/
theorem uniqueTables_spec_witness :
    (uniqueTables dupDiscovered =
      [⟨"orders", "public", "BASE TABLE", none, none⟩,
       ⟨"users", "auth", "BASE TABLE", none, none⟩]) ∧
    (dupDiscovered.find? (fun u => u.table_name ==
        (⟨"orders", "public", "BASE TABLE", none, none⟩ : TableDesc).table_name) =
      some ⟨"orders", "public", "BASE TABLE", none, none⟩) ∧
    (∃ u ∈ uniqueTables dupDiscovered,
      u.table_name =
        (⟨"orders", "public", "GRAPHQL_TYPE", some "Orders",
          some 7⟩ : TableDesc).table_name) :=
  ⟨by decide,
   (uniqueTables_spec dupDiscovered).2.1 _ (by decide),
   (uniqueTables_spec dupDiscovered).2.2 _ (by decide)⟩

/-! ### Column resolver (`getTableColumns`) -/

/-- The three column-resolution data sources for one collection, the
observed results of the Supabase calls `getTableColumns` issues.  An
`error` models both a returned error and a thrown exception; a `null` data
payload is modelled as the empty list in positions where the code only
tests `data?.length > 0`.  The RPC result keeps its `data` nullability
because the code tests `!error && data`. -/
structure ColumnSources where
  catalog : Except String (List ColumnDescriptor)
  zeroProbe : Except String Unit
  sampleProbe : Except String (List JsObject)
  rpc : Except String (Option (List ColumnDescriptor))

/-- Column shapes inferred from one sampled row:
`Object.keys(sampleData[0]).map(colName => ({column_name: colName, data_type: 'unknown', is_nullable: 'YES', column_default: null}))`. -/
def inferredColumns (row : JsObject) : List ColumnDescriptor :=
  row.map (fun kv =>
    { column_name := kv.1, data_type := "unknown", is_nullable := "YES",
      column_default := none, ordinal_position := none })

/-- `getTableColumns` from `extract-data.js`: catalog column query, then
zero-row probe + one-row sample inference, then metadata RPC; `none` is the
JS `return null` — the explicit unresolved signal. -/
def getTableColumns (s : ColumnSources) : Option (List ColumnDescriptor) :=
  let fromCatalog :=
    match s.catalog with
    | .ok data => if 0 < data.length then some data else none
    | .error _ => none
  match fromCatalog with
  | some data => some data
  | none =>
    let fromSample :=
      match s.zeroProbe with
      | .error _ => none
      | .ok _ =>
        match s.sampleProbe with
        | .error _ => none
        | .ok [] => none
        | .ok (row :: _) => some (inferredColumns row)
    match fromSample with
    | some cols => some cols
    | none =>
      match s.rpc with
      | .ok (some data) => some data
      | _ => none

/-- The catalog method falls through: it errored or returned no rows. -/
def catalogMiss (s : ColumnSources) : Bool :=
  match s.catalog with
  | .error _ => true
  | .ok d => d.length == 0

/-- The probe/sample method falls through: the zero-row probe or the sample
errored, or the sample returned no rows. -/
def sampleMiss (s : ColumnSources) : Bool :=
  match s.zeroProbe with
  | .error _ => true
  | .ok _ =>
    match s.sampleProbe with
    | .error _ => true
    | .ok rows => rows.isEmpty

/-- The RPC method falls through: it errored or returned `null` data. -/
def rpcMiss (s : ColumnSources) : Bool :=
  match s.rpc with
  | .ok (some _) => false
  | _ => true

/-- C6: when the catalog method fails and the sample probe succeeds with at
least one row, the resolver returns exactly one descriptor per observed
field key of that row (`data_type = "unknown"`, `is_nullable = "YES"`,
`column_default = null`); when every method fails it returns `none` — the
explicit unresolved signal, distinct from `some []`. -/
theorem getTableColumns_fallback (s : ColumnSources) :
    (∀ row rest, catalogMiss s = true → s.zeroProbe = .ok () →
      s.sampleProbe = .ok (row :: rest) →
      getTableColumns s = some (inferredColumns row)) ∧
    (catalogMiss s = true → sampleMiss s = true → rpcMiss s = true →
      getTableColumns s = none) := by
  obtain ⟨cat, zp, sp, rpc⟩ := s
  constructor
  · intro row rest hcat hzero hsample
    simp only at hzero hsample
    subst hzero
    subst hsample
    rcases cat with e | d
    · rfl
    · unfold catalogMiss at hcat
      simp only [beq_iff_eq] at hcat
      unfold getTableColumns
      simp [hcat]
  · intro hcat hsmiss hrmiss
    rcases cat with e | d <;> rcases zp with e2 | u <;>
      rcases sp with e3 | rows <;> rcases rpc with e4 | od
    all_goals try rcases od with _ | d2
    all_goals try rcases rows with _ | ⟨r, rs⟩
    all_goals simp_all [getTableColumns, catalogMiss, sampleMiss, rpcMiss]

/-- The spec's resolver-fallback example: catalog mocked to fail, sample
probe succeeding with the single row `{id: 1, name: "x"}`. -/
def exampleSources : ColumnSources :=
  { catalog := .error "permission denied",
    zeroProbe := .ok (),
    sampleProbe := .ok [[("id", vNum 1), ("name", vStr "x")]],
    rpc := .error "function not found" }

/-- C6 witness: the example resolves to exactly two `unknown`-typed columns
`id` and `name`; with every method failing the result is `none`. -/
theorem getTableColumns_fallback_witness :
    getTableColumns exampleSources =
      some [⟨"id", "unknown", "YES", none, none⟩,
            ⟨"name", "unknown", "YES", none, none⟩] ∧
    getTableColumns
      { catalog := .error "a", zeroProbe := .error "b",
        sampleProbe := .error "c", rpc := .error "d" } = none :=
  ⟨(getTableColumns_fallback exampleSources).1
      [("id", vNum 1), ("name", vStr "x")] [] rfl rfl rfl,
   (getTableColumns_fallback _).2 rfl rfl rfl⟩

/-! ### Storage exposure scanner (`analyzeStorageBuckets`) -/

def STORAGE_INDEX_LIMIT : Nat := 2000

def STORAGE_PUBLIC_VERIFY_SAMPLE : Nat := 5

/-- One storage bucket with the oracles for the network interactions the
scanner performs against it: the bucket's full root-level listing (pages
are served as `drop offset / take limit` windows; an error on a
mid-pagination page is observationally identical to an empty page — both
just break the loop without adding entries), per-prefix sub-listings,
public-URL resolution (`""` models a missing/falsy `publicUrl`) and the
unauthenticated reachability probe. -/
structure Bucket where
  name : String
  isPublic : Bool
  fileSizeLimit : Option Nat
  listError : Option String
  rootObjects : List String
  subObjects : String → List String
  publicUrl : String → String
  urlReachable : String → Bool

/-- One page of the root-level listing: `list('', { limit, offset })`. -/
def listRootPage (b : Bucket) (offset limit : Nat) : List String :=
  (b.rootObjects.drop offset).take limit

/-- The root pagination loop of `analyzeStorageBuckets`: request pages of
200 while fewer than `STORAGE_INDEX_LIMIT` objects are indexed, pushing the
whole page each time; a short or empty page ends the listing. -/
def pagedList (b : Bucket) (objects : List String) (offset : Nat) :
    List String :=
  if _h : objects.length < STORAGE_INDEX_LIMIT then
    if _h2 : (listRootPage b offset 200).length = 0 then objects
    else if _h3 : (listRootPage b offset 200).length < 200 then
      objects ++ listRootPage b offset 200
    else
      pagedList b (objects ++ listRootPage b offset 200)
        (offset + (listRootPage b offset 200).length)
  else objects
termination_by STORAGE_INDEX_LIMIT - objects.length
decreasing_by
  simp only [List.length_append]
  omega

/-- The one-level folder recursion: for each candidate prefix (at most 30),
list its contents (page of 100) and append `prefix/name` entries, stopping
exactly at the global cap. -/
def foldFolders (b : Bucket) (folders : List String)
    (objects : List String) : List String :=
  folders.foldl
    (fun objs f =>
      if STORAGE_INDEX_LIMIT ≤ objs.length then objs
      else if 0 < ((b.subObjects f).take 100).length then
        objs ++ (((b.subObjects f).take 100).map (fun e => f ++ "/" ++ e)).take
          (STORAGE_INDEX_LIMIT - objs.length)
      else objs)
    objects

/-- The object-indexing block of `analyzeStorageBuckets` for one bucket:
first page of 500, pagination from offset 500, then the folder heuristic on
extension-less root entries. -/
def indexObjects (b : Bucket) : List String :=
  if (listRootPage b 0 500).length = 0 then []
  else
    foldFolders b
      (((pagedList b (listRootPage b 0 500) 500).filter
        (fun o => !o.data.contains '.' && 0 < o.data.length)).take 30)
      (pagedList b (listRootPage b 0 500) 500)

structure PublicUrlCheck where
  verified : Nat
  sampleSize : Nat
  deriving DecidableEq, Repr

/-- The per-bucket audit record (`samplePaths` keeps the first 10 indexed
paths; the size annotation of the JS output string is presentation only). -/
structure BucketAudit where
  name : String
  isPublic : Bool
  fileSizeLimit : Option Nat
  objectCount : Nat
  samplePaths : List String
  listError : Option String
  publicUrlCheck : Option PublicUrlCheck
  deriving DecidableEq, Repr

/-- How many of the sampled objects resolve to a truthy public URL that an
unauthenticated fetch reaches. -/
def verifyCount (b : Bucket) (sample : List String) : Nat :=
  sample.countP (fun o => (b.publicUrl o != "") && b.urlReachable (b.publicUrl o))

/-- The per-bucket body of `analyzeStorageBuckets`: index the objects and,
for a configured-public bucket with at least one indexed object, verify
unauthenticated reachability of up to 5 sampled objects. -/
def analyzeBucket (b : Bucket) : BucketAudit :=
  match b.listError with
  | some e =>
    { name := b.name, isPublic := b.isPublic, fileSizeLimit := b.fileSizeLimit,
      objectCount := 0, samplePaths := [], listError := some e,
      publicUrlCheck := none }
  | none =>
    { name := b.name, isPublic := b.isPublic, fileSizeLimit := b.fileSizeLimit,
      objectCount := (indexObjects b).length,
      samplePaths := (indexObjects b).take 10,
      listError := none,
      publicUrlCheck :=
        if b.isPublic && 0 < (indexObjects b).length then
          some { verified :=
                   verifyCount b ((indexObjects b).take STORAGE_PUBLIC_VERIFY_SAMPLE),
                 sampleSize :=
                   ((indexObjects b).take STORAGE_PUBLIC_VERIFY_SAMPLE).length }
        else none }

/-- `analyzeStorageBuckets`: a failed `listBuckets` yields no audits; else
one audit per bucket. -/
def analyzeStorageBuckets (buckets : Except String (List Bucket)) :
    List BucketAudit :=
  match buckets with
  | .error _ => []
  | .ok bs => bs.map analyzeBucket

/-- Unfolding the pagination loop once when the listing already reached the
cap. -/
theorem pagedList_stop (b : Bucket) (objects : List String) (offset : Nat)
    (h : ¬ objects.length < STORAGE_INDEX_LIMIT) :
    pagedList b objects offset = objects := by
  rw [pagedList.eq_def, dif_neg h]

/-- Unfolding the pagination loop once on a full page of 200. -/
theorem pagedList_step (b : Bucket) (objects : List String) (offset : Nat)
    (h1 : objects.length < STORAGE_INDEX_LIMIT)
    (h2 : (listRootPage b offset 200).length = 200) :
    pagedList b objects offset =
      pagedList b (objects ++ listRootPage b offset 200) (offset + 200) := by
  rw [pagedList.eq_def, dif_pos h1, dif_neg (by omega), dif_neg (by omega), h2]

/-! ### C1: the per-bucket index cap -/

/-- A bucket whose root-level listing can supply 5000 objects (every entry
carries an extension, so the folder heuristic finds no prefix to recurse
into — and the run is past the cap before that phase anyway). -/
def bigBucket : Bucket :=
  { name := "big", isPublic := false, fileSizeLimit := none,
    listError := none,
    rootObjects := List.replicate 5000 "a.b",
    subObjects := fun _ => [],
    publicUrl := fun _ => "",
    urlReachable := fun _ => false }

theorem listRootPage_big (off lim : Nat) :
    listRootPage bigBucket off lim =
      List.replicate (min lim (5000 - off)) "a.b" := by
  unfold listRootPage bigBucket
  simp only
  rw [List.drop_replicate, List.take_replicate]

theorem pagedList_big :
    ∀ (k m : Nat), 2100 - m ≤ k → 500 ≤ m → m ≤ 2100 → m % 200 = 100 →
      pagedList bigBucket (List.replicate m "a.b") m =
        List.replicate 2100 "a.b" := by
  intro k
  induction k with
  | zero =>
    intro m hk h5 h21 hmod
    have hm : m = 2100 := by omega
    subst hm
    apply pagedList_stop
    rw [List.length_replicate]
    unfold STORAGE_INDEX_LIMIT
    omega
  | succ k ih =>
    intro m hk h5 h21 hmod
    by_cases h2000 : STORAGE_INDEX_LIMIT ≤ m
    · have hm : m = 2100 := by
        unfold STORAGE_INDEX_LIMIT at h2000; omega
      subst hm
      apply pagedList_stop
      rw [List.length_replicate]
      unfold STORAGE_INDEX_LIMIT
      omega
    · have hm2000 : m < 2000 := by
        unfold STORAGE_INDEX_LIMIT at h2000; omega
      rw [pagedList_step bigBucket _ m
        (by rw [List.length_replicate]; unfold STORAGE_INDEX_LIMIT; omega)
        (by rw [listRootPage_big, List.length_replicate]; omega)]
      rw [listRootPage_big]
      rw [show min 200 (5000 - m) = 200 by omega]
      rw [← List.replicate_add]
      exact ih (m + 200) (by omega) (by omega) (by omega) (by omega)

theorem indexObjects_big :
    indexObjects bigBucket = List.replicate 2100 "a.b" := by
  unfold indexObjects
  rw [listRootPage_big]
  rw [show min 500 (5000 - 0) = 500 by omega]
  rw [if_neg (by rw [List.length_replicate]; omega)]
  rw [pagedList_big 1600 500 (by omega) (by omega) (by omega) (by omega)]
  rw [List.filter_replicate]
  rw [if_neg (by decide)]
  rfl

set_option maxRecDepth 8192 in
theorem bigBucket_count : (analyzeBucket bigBucket).objectCount = 2100 := by
  show (indexObjects bigBucket).length = 2100
  rw [indexObjects_big, List.length_replicate]

/-- C1 counterexample: a bucket whose root listing supplies 5000 objects is
indexed to 2100 entries — the reported `objectCount` exceeds the
2000-object cap, because the pagination loop pushes a whole page of 200
after checking the cap. -/
theorem storage_cap_counterexample :
    bigBucket.rootObjects.length = 5000 ∧
    STORAGE_INDEX_LIMIT < (analyzeBucket bigBucket).objectCount := by
  constructor
  · show (List.replicate 5000 "a.b").length = 5000
    rw [List.length_replicate]
  · rw [bigBucket_count]
    unfold STORAGE_INDEX_LIMIT
    omega

theorem pagedList_le (b : Bucket) :
    ∀ (k : Nat) (objects : List String) (off : Nat),
      STORAGE_INDEX_LIMIT - objects.length ≤ k → objects.length ≤ 2199 →
      (pagedList b objects off).length ≤ 2199 := by
  intro k
  induction k with
  | zero =>
    intro objects off hk h
    rw [pagedList_stop b objects off (by omega)]
    exact h
  | succ k ih =>
    intro objects off hk h
    rw [pagedList.eq_def]
    by_cases hc : objects.length < STORAGE_INDEX_LIMIT
    · rw [dif_pos hc]
      have hnle : (listRootPage b off 200).length ≤ 200 :=
        List.length_take_le 200 _
      by_cases h0 : (listRootPage b off 200).length = 0
      · rw [dif_pos h0]
        exact h
      · rw [dif_neg h0]
        by_cases hs : (listRootPage b off 200).length < 200
        · rw [dif_pos hs]
          rw [List.length_append]
          unfold STORAGE_INDEX_LIMIT at hc
          omega
        · rw [dif_neg hs]
          apply ih
          · rw [List.length_append]
            omega
          · rw [List.length_append]
            unfold STORAGE_INDEX_LIMIT at hc
            omega
    · rw [dif_neg hc]
      exact h

theorem foldFolders_le (b : Bucket) :
    ∀ (fs : List String) (objects : List String), objects.length ≤ 2199 →
      (foldFolders b fs objects).length ≤ 2199 := by
  intro fs
  induction fs with
  | nil => intro objects h; exact h
  | cons f fs ih =>
    intro objects h
    unfold foldFolders at ih ⊢
    rw [List.foldl_cons]
    apply ih
    by_cases hc : STORAGE_INDEX_LIMIT ≤ objects.length
    · rw [if_pos hc]
      exact h
    · rw [if_neg hc]
      by_cases hs : 0 < ((b.subObjects f).take 100).length
      · rw [if_pos hs]
        rw [List.length_append]
        have hb := List.length_take_le (STORAGE_INDEX_LIMIT - objects.length)
          (((b.subObjects f).take 100).map (fun e => f ++ "/" ++ e))
        unfold STORAGE_INDEX_LIMIT at hc hb ⊢
        omega
      · rw [if_neg hs]
        exact h

/-- C1 (amended): the indexer stops within one pagination page of the cap —
`objectCount` never exceeds 2199 (a page of 200 can be pushed whole when
the count is still one short of the 2000 cap); only the folder phase
enforces the cap exactly.  With 5000 root-level listable objects it indexes
exactly 2100 entries, not 2000. -/
theorem analyzeBucket_objectCount_bound :
    (∀ b : Bucket, (analyzeBucket b).objectCount ≤ 2199) ∧
    (analyzeBucket bigBucket).objectCount = 2100 := by
  constructor
  · intro b
    unfold analyzeBucket
    rcases hl : b.listError with _ | e
    · show (indexObjects b).length ≤ 2199
      unfold indexObjects
      by_cases h0 : (listRootPage b 0 500).length = 0
      · rw [if_pos h0]
        simp
      · rw [if_neg h0]
        apply foldFolders_le
        apply pagedList_le b STORAGE_INDEX_LIMIT _ 500 (by omega)
        have := List.length_take_le 500 (b.rootObjects.drop 0)
        unfold listRootPage
        omega
    · show (0 : Nat) ≤ 2199
      omega
  · exact bigBucket_count

/-! ### C5: the public-exposure signal -/

theorem analyzeBucket_fields (b : Bucket) (hl : b.listError = none) :
    (analyzeBucket b).objectCount = (indexObjects b).length ∧
    (analyzeBucket b).publicUrlCheck =
      (if b.isPublic && 0 < (indexObjects b).length then
        some { verified :=
                 verifyCount b ((indexObjects b).take STORAGE_PUBLIC_VERIFY_SAMPLE),
               sampleSize :=
                 ((indexObjects b).take STORAGE_PUBLIC_VERIFY_SAMPLE).length }
      else none) := by
  unfold analyzeBucket
  rw [hl]
  exact ⟨rfl, rfl⟩

theorem analyzeBucket_fields_err (b : Bucket) (e : String)
    (hl : b.listError = some e) :
    (analyzeBucket b).objectCount = 0 ∧
    (analyzeBucket b).publicUrlCheck = none := by
  unfold analyzeBucket
  rw [hl]
  exact ⟨rfl, rfl⟩

/-- C5: a bucket configured public reports no `publicUrlCheck` when zero
objects were indexed; with at least one indexed object it always reports a
check whose `sampleSize` is the number of sampled objects (at most 5) and
whose `verified` equals the number of sampled objects reachable by an
unauthenticated fetch — in particular 0 (not an omitted check) when every
sampled fetch fails. -/
theorem analyzeBucket_publicUrlCheck (b : Bucket) (hp : b.isPublic = true) :
    ((analyzeBucket b).objectCount = 0 →
      (analyzeBucket b).publicUrlCheck = none) ∧
    (0 < (analyzeBucket b).objectCount →
      (analyzeBucket b).publicUrlCheck =
        some { verified :=
                 verifyCount b ((indexObjects b).take STORAGE_PUBLIC_VERIFY_SAMPLE),
               sampleSize :=
                 ((indexObjects b).take STORAGE_PUBLIC_VERIFY_SAMPLE).length } ∧
      ((indexObjects b).take STORAGE_PUBLIC_VERIFY_SAMPLE).length ≤
        STORAGE_PUBLIC_VERIFY_SAMPLE ∧
      ((∀ o ∈ (indexObjects b).take STORAGE_PUBLIC_VERIFY_SAMPLE,
          b.urlReachable (b.publicUrl o) = false) →
        verifyCount b ((indexObjects b).take STORAGE_PUBLIC_VERIFY_SAMPLE) = 0)) := by
  rcases hl : b.listError with _ | e
  · obtain ⟨hoc, hpc⟩ := analyzeBucket_fields b hl
    constructor
    · intro h0
      rw [hoc] at h0
      rw [hpc, if_neg]
      simp [h0]
    · intro hpos
      rw [hoc] at hpos
      refine ⟨?_, List.length_take_le _ _, ?_⟩
      · rw [hpc, if_pos (by rw [hp]; simpa using hpos)]
      · intro hall
        unfold verifyCount
        rw [List.countP_eq_zero]
        intro o ho
        simp [hall o ho]
  · obtain ⟨hoc, hpc⟩ := analyzeBucket_fields_err b e hl
    constructor
    · intro _
      exact hpc
    · intro hpos
      rw [hoc] at hpos
      exact absurd hpos (by omega)

/-- A configured-public bucket with three indexed objects, none of whose
public URLs is reachable without credentials. -/
def smallPublicBucket : Bucket :=
  { name := "pub", isPublic := true, fileSizeLimit := none, listError := none,
    rootObjects := ["x.png", "y.png", "z.png"],
    subObjects := fun _ => [],
    publicUrl := fun p => "https://h/" ++ p,
    urlReachable := fun _ => false }

/-- A configured-public bucket with an empty listing. -/
def emptyPublicBucket : Bucket :=
  { name := "emptypub", isPublic := true, fileSizeLimit := none,
    listError := none, rootObjects := [],
    subObjects := fun _ => [], publicUrl := fun _ => "",
    urlReachable := fun _ => true }

theorem smallPublicBucket_index :
    indexObjects smallPublicBucket = ["x.png", "y.png", "z.png"] := by
  unfold indexObjects
  rw [if_neg (by decide)]
  rw [pagedList.eq_def, dif_pos (by decide), dif_pos (by decide)]
  decide

/-- C5 witness: the three-object public bucket reports `verified = 0` out
of `sampleSize = 3`; the empty public bucket reports no check at all. -/
theorem analyzeBucket_publicUrlCheck_witness :
    smallPublicBucket.isPublic = true ∧
    0 < (analyzeBucket smallPublicBucket).objectCount ∧
    (analyzeBucket smallPublicBucket).publicUrlCheck = some ⟨0, 3⟩ ∧
    (analyzeBucket emptyPublicBucket).objectCount = 0 ∧
    (analyzeBucket emptyPublicBucket).publicUrlCheck = none := by
  have hoc : (analyzeBucket smallPublicBucket).objectCount = 3 := by
    obtain ⟨ho, -⟩ := analyzeBucket_fields smallPublicBucket rfl
    rw [ho, smallPublicBucket_index]
    rfl
  have hoce : (analyzeBucket emptyPublicBucket).objectCount = 0 := by
    obtain ⟨ho, -⟩ := analyzeBucket_fields emptyPublicBucket rfl
    rw [ho]
    decide
  refine ⟨rfl, by rw [hoc]; omega, ?_, hoce, ?_⟩
  · have h := ((analyzeBucket_publicUrlCheck smallPublicBucket rfl).2
      (by rw [hoc]; omega)).1
    rw [h, smallPublicBucket_index]
    decide
  · exact (analyzeBucket_publicUrlCheck emptyPublicBucket rfl).1 hoce

/-! ### Run orchestration (`extractTableData`, `runExtraction`) -/

def SAMPLE_ROWS_COUNT : Nat := 3

/-- The network results `extractTableData` observes for one collection: the
column-resolution sources, the full-table `count: 'exact'` query (returned
rows and server-reported count, `none` modelling a null count), and the
retry of the same query under the original GraphQL type name. -/
structure TableQueryEnv where
  columnSources : ColumnSources
  primary : Except String (List JsObject × Option Nat)
  graphqlRetry : Except String (List JsObject × Option Nat)

/-- The per-collection extraction result of `extractTableData`. -/
structure ExtractResult where
  table_name : String
  table_schema : String
  table_type : String
  graphql_type : Option String
  columns : Option (List ColumnDescriptor)
  rowCount : Nat
  sampleRows : List JsObject
  error : Option String
  deriving DecidableEq, Repr

/-- `extractTableData` from `extract-data.js`: resolve columns (skipped for
GraphQL-discovered collections), query all rows with an exact count —
retrying once under the original GraphQL type name and keeping the original
error when the retry also fails — then keep the first 3 rows as the sample,
masked iff the collection is `auth.users`. -/
def extractTableData (t : TableDesc) (env : TableQueryEnv) : ExtractResult :=
  let columns :=
    if t.table_type != "GRAPHQL_TYPE" then getTableColumns env.columnSources
    else none
  let queried :=
    match env.primary with
    | .ok r => Except.ok r
    | .error e =>
      match t.graphql_type with
      | some _ =>
        match env.graphqlRetry with
        | .ok r => Except.ok r
        | .error _ => Except.error e
      | none => Except.error e
  match queried with
  | .error e =>
    { table_name := t.table_name, table_schema := t.table_schema,
      table_type := t.table_type, graphql_type := t.graphql_type,
      columns := columns, rowCount := 0, sampleRows := [], error := some e }
  | .ok (data, count) =>
    { table_name := t.table_name, table_schema := t.table_schema,
      table_type := t.table_type, graphql_type := t.graphql_type,
      columns := columns,
      rowCount := count.getD data.length,
      sampleRows :=
        (if t.table_schema == "auth" && t.table_name == "users" then
          (data.take SAMPLE_ROWS_COUNT).map maskAuthUsersRow
        else data.take SAMPLE_ROWS_COUNT),
      error := none }

/-- One entry of `result.tables`: the extraction result plus the PII
findings `runExtraction` attaches
(`detectPII(extracted.columns || [], extracted.sampleRows || [])`). -/
structure RecordRow where
  table_name : String
  table_schema : String
  table_type : String
  graphql_type : Option String
  columns : Option (List ColumnDescriptor)
  rowCount : Nat
  sampleRows : List JsObject
  error : Option String
  piiFindings : List PIIFinding
  deriving DecidableEq, Repr

structure AuthInfo where
  used : Bool
  userEmail : Option String
  deriving DecidableEq, Repr

/-- The `RunResult` aggregate (`discoveryLog` is presentation only and
omitted; `exportSqlPath` concerns the out-of-scope file export). -/
structure RunResult where
  tables : List RecordRow
  storageBuckets : List BucketAudit
  auth : AuthInfo
  deriving DecidableEq, Repr

/-- The run configuration entries the run-level guards inspect. -/
structure Config where
  url : Option String
  key : Option String
  deriving DecidableEq, Repr

/-- JS truthiness of an optional string configuration entry (absent and
empty are both falsy). -/
def truthyOpt : Option String → Bool
  | none => false
  | some s => s != ""

/-- The environment one run observes: connectivity, the authentication
outcome (`some email?` when authentication succeeded), the concatenation of
all discovery-strategy outputs (merged by `uniqueTables` inside the run),
the per-collection query environment, and the storage bucket listing. -/
structure RunEnv where
  connectionOk : Bool
  authResult : Option (Option String)
  discovered : List TableDesc
  tableEnv : TableDesc → TableQueryEnv
  storageBuckets : Except String (List Bucket)

def mkRecordRow (t : TableDesc) (env : TableQueryEnv) : RecordRow :=
  let ex := extractTableData t env
  { table_name := ex.table_name, table_schema := ex.table_schema,
    table_type := ex.table_type, graphql_type := ex.graphql_type,
    columns := ex.columns, rowCount := ex.rowCount,
    sampleRows := ex.sampleRows, error := ex.error,
    piiFindings := detectPII (ex.columns.getD []) ex.sampleRows }

/-- `runExtraction`: throw on missing url/key, throw on connection failure,
return an empty (but valid) result when discovery finds nothing, otherwise
extract every discovered collection and audit storage. -/
def runExtraction (config : Config) (env : RunEnv) : Except String RunResult :=
  if !(truthyOpt config.url) || !(truthyOpt config.key) then
    .error "Missing required parameters: url and key"
  else if !env.connectionOk then
    .error "Connection failed"
  else if (uniqueTables env.discovered).length = 0 then
    .ok { tables := [], storageBuckets := [],
          auth := { used := env.authResult.isSome,
                    userEmail := env.authResult.join } }
  else
    .ok { tables := (uniqueTables env.discovered).map
            (fun t => mkRecordRow t (env.tableEnv t)),
          storageBuckets := analyzeStorageBuckets env.storageBuckets,
          auth := { used := env.authResult.isSome,
                    userEmail := env.authResult.join } }

/-- C7: missing url/key and connectivity failure surface as a single thrown
error with no partial result, while zero discovered collections is a valid
non-fatal outcome: an `ok` result with an empty records list. -/
theorem runExtraction_runLevel (config : Config) (env : RunEnv) :
    ((truthyOpt config.url = false ∨ truthyOpt config.key = false) →
      runExtraction config env =
        .error "Missing required parameters: url and key") ∧
    (truthyOpt config.url = true → truthyOpt config.key = true →
      env.connectionOk = false →
      runExtraction config env = .error "Connection failed") ∧
    (truthyOpt config.url = true → truthyOpt config.key = true →
      env.connectionOk = true → uniqueTables env.discovered = [] →
      ∃ r, runExtraction config env = .ok r ∧ r.tables = []) := by
  unfold runExtraction
  refine ⟨?_, ?_, ?_⟩
  · rintro (h | h) <;> simp [h]
  · intro h1 h2 h3
    simp [h1, h2, h3]
  · intro h1 h2 h3 h4
    refine ⟨{ tables := [], storageBuckets := [],
              auth := { used := env.authResult.isSome,
                        userEmail := env.authResult.join } }, ?_, rfl⟩
    simp [h1, h2, h3, h4]

/-- A query environment in which every call fails. -/
def defaultTableEnv : TableQueryEnv :=
  { columnSources :=
      { catalog := .error "x", zeroProbe := .error "x",
        sampleProbe := .error "x", rpc := .error "x" },
    primary := .error "x", graphqlRetry := .error "x" }

def cfgOk : Config := { url := some "https://x.supabase.co", key := some "anon" }

def cfgMissing : Config := { url := none, key := some "anon" }

def envNoTables : RunEnv :=
  { connectionOk := true, authResult := none, discovered := [],
    tableEnv := fun _ => defaultTableEnv, storageBuckets := .ok [] }

def envDown : RunEnv :=
  { connectionOk := false, authResult := none, discovered := [],
    tableEnv := fun _ => defaultTableEnv, storageBuckets := .ok [] }

/-- C7 witness: the three run-level outcomes at concrete inputs. -/
theorem runExtraction_runLevel_witness :
    runExtraction cfgMissing envNoTables =
      .error "Missing required parameters: url and key" ∧
    runExtraction cfgOk envDown = .error "Connection failed" ∧
    ∃ r, runExtraction cfgOk envNoTables = .ok r ∧ r.tables = [] :=
  ⟨(runExtraction_runLevel cfgMissing envNoTables).1 (Or.inl rfl),
   (runExtraction_runLevel cfgOk envDown).2.1 rfl rfl rfl,
   (runExtraction_runLevel cfgOk envNoTables).2.2 rfl rfl rfl rfl⟩

/-- C9: an empty column list yields no findings even when sample rows with
PII-pattern values are present; consequently every record whose columns
were never resolved (every GraphQL-discovered collection skips resolution,
and a fully failed resolver leaves `columns` unresolved) carries zero PII
findings. -/
theorem detectPII_requires_columns :
    (∀ rows : List JsObject, detectPII [] rows = []) ∧
    (∀ (config : Config) (env : RunEnv) (r : RunResult),
      runExtraction config env = .ok r →
      ∀ rec ∈ r.tables, rec.columns = none → rec.piiFindings = []) := by
  refine ⟨fun rows => rfl, ?_⟩
  intro config env r hok rec hrec hcols
  unfold runExtraction at hok
  split at hok
  · exact absurd hok (by simp)
  · split at hok
    · exact absurd hok (by simp)
    · split at hok
      · have hr := Except.ok.inj hok
        subst hr
        exact absurd hrec (List.not_mem_nil rec)
      · have hr := Except.ok.inj hok
        subst hr
        rcases List.mem_map.mp hrec with ⟨t, htl, rfl⟩
        replace hcols :
            (extractTableData t (env.tableEnv t)).columns = none := hcols
        show detectPII
          ((extractTableData t (env.tableEnv t)).columns.getD [])
          (extractTableData t (env.tableEnv t)).sampleRows = []
        rw [hcols]
        rfl

/-- A GraphQL-discovered collection descriptor. -/
def graphqlDesc : TableDesc :=
  { table_name := "blog_post", table_schema := "public",
    table_type := "GRAPHQL_TYPE", graphql_type := some "BlogPost",
    field_count := some 3 }

/-- An environment discovering only `graphqlDesc`, whose row query returns
one row holding a PII-pattern telephone value. -/
def envGraph : RunEnv :=
  { connectionOk := true, authResult := none,
    discovered := [graphqlDesc],
    tableEnv := fun _ =>
      { columnSources :=
          { catalog := .error "x", zeroProbe := .error "x",
            sampleProbe := .error "x", rpc := .error "x" },
        primary := .ok ([[("phone", vStr "0123 456 7890")]], some 1),
        graphqlRetry := .error "x" },
    storageBuckets := .ok [] }

/-- The record the graph-discovered collection produces: no resolved
columns, a non-empty sample, zero PII findings. -/
def graphRecord : RecordRow :=
  { table_name := "blog_post", table_schema := "public",
    table_type := "GRAPHQL_TYPE", graphql_type := some "BlogPost",
    columns := none, rowCount := 1,
    sampleRows := [[("phone", vStr "0123 456 7890")]],
    error := none, piiFindings := [] }

def graphRunResult : RunResult :=
  { tables := [graphRecord], storageBuckets := [],
    auth := { used := false, userEmail := none } }

/-- C9 witness: the matcher is silent on an empty column list even though a
row value matches the telephone pattern, and a run over a single
GraphQL-discovered collection yields a record with unresolved columns, a
non-empty sample and no findings. -/
theorem detectPII_requires_columns_witness :
    detectPII [] [[("phone", vStr "0123 456 7890")]] = [] ∧
    runExtraction cfgOk envGraph = .ok graphRunResult ∧
    graphRecord ∈ graphRunResult.tables ∧
    graphRecord.columns = none ∧
    graphRecord.sampleRows ≠ [] ∧
    graphRecord.piiFindings = [] :=
  ⟨detectPII_requires_columns.1 [[("phone", vStr "0123 456 7890")]],
   rfl,
   List.Mem.head _,
   rfl,
   by decide,
   detectPII_requires_columns.2 cfgOk envGraph graphRunResult rfl
     graphRecord (List.Mem.head _) rfl⟩

end Supamole
